import Mathlib

/-!
Shallow embedding of `script_python/sites_association.py` (TuSTScenario).

The script tracks, over a SUMO traffic simulation, which cell site each
vehicle is associated with.  The simulation engine (libsumo) is an external
oracle: vehicle positions, arrival/teleport events and the planar distance
function `libsumo.simulation.getDistance2D` are inputs of the embedding.
Coordinates are rationals and the distance metric is an explicit parameter
`d : Pos → Pos → ℚ`; wherever the Python code compares two distances or a
distance with the threshold, the embedding performs the same comparison on
the values of `d`.
-/

deriving instance DecidableEq for Except

namespace SitesAssociation

/-- Planar coordinates, as handed out by the simulation oracle. -/
abbrev Pos := ℚ × ℚ

abbrev SiteId := String
abbrev VehId := String

/-- The site registry `poi_pos`: a Python dict modelled as an insertion-ordered
association list from site id to position (line 162 of the script). -/
abbrev Registry := List (SiteId × Pos)

/-- The tracker dict `vehicles`: vehicle id ↦ `Optional[str]` site id.
A key present with value `none` is an UNASSOCIATED record. -/
abbrev VehMap := List (VehId × Option SiteId)

/-- Dictionary lookup: first entry with the given key, mirroring `dict[k]` /
`dict.get(k)` (association lists built by `insertA` keep keys unique, like a
Python dict). -/
def lookupA {α β : Type} [DecidableEq α] : List (α × β) → α → Option β
  | [], _ => none
  | (k, v) :: rest, key => if k = key then some v else lookupA rest key

/-- Dictionary assignment `dict[k] = v`: replace in place when the key exists,
append at the end otherwise (Python dicts preserve insertion order). -/
def insertA {α β : Type} [DecidableEq α] : List (α × β) → α → β → List (α × β)
  | [], key, val => [(key, val)]
  | (k, v) :: rest, key, val =>
      if k = key then (k, val) :: rest else (k, v) :: insertA rest key val

/-- Dictionary deletion `del dict[k]`: drop the first entry with the key. -/
def eraseA {α β : Type} [DecidableEq α] : List (α × β) → α → List (α × β)
  | [], _ => []
  | (k, v) :: rest, key => if k = key then rest else (k, v) :: eraseA rest key

/-- A concrete planar metric (squared Euclidean distance) used to instantiate
the oracle parameter `d` on concrete runs; comparisons of squared Euclidean
distances order points exactly as the Euclidean distances of
`getDistance2D` do. -/
def dist2 (p q : Pos) : ℚ :=
  (p.1 - q.1) * (p.1 - q.1) + (p.2 - q.2) * (p.2 - q.2)

/-- The scanning loop inside `new_cell_site` (lines 33-39): iterate over the
registry keeping the running minimum `new_site = (id, dist)`.  The Python
initial accumulator `(None, float('inf'))` is modelled by `none`: the first
site always beats it, because every distance is `< inf`. -/
def scan_min (d : Pos → Pos → ℚ) (veh_coord : Pos) :
    Registry → Option (SiteId × ℚ) → Option (SiteId × ℚ)
  | [], acc => acc
  | sp :: rest, acc =>
      let dist := d sp.2 veh_coord
      match acc with
      | none => scan_min d veh_coord rest (some (sp.1, dist))
      | some (i, best) =>
          if dist < best then scan_min d veh_coord rest (some (sp.1, dist))
          else scan_min d veh_coord rest (some (i, best))

/-- `new_cell_site(poi_pos, veh_coord, max_dist)` (lines 10-41): nearest site
by linear scan; returns the id when the minimum distance is `≤ max_dist`,
`None` otherwise.  With an empty registry the accumulator stays
`(None, inf)` and `inf <= max_dist` is false, so the result is `None`. -/
def new_cell_site (d : Pos → Pos → ℚ) (poi_pos : Registry) (veh_coord : Pos)
    (max_dist : ℚ) : Option SiteId :=
  match scan_min d veh_coord poi_pos none with
  | some (i, best) => if best ≤ max_dist then some i else none
  | none => none

/-- `check_connection(poi_coord, veh_coord, dist)` (lines 43-63): whether the
vehicle-site distance is strictly greater than `dist`. -/
def check_connection (d : Pos → Pos → ℚ) (poi_coord veh_coord : Pos)
    (dist : ℚ) : Bool :=
  decide (dist < d poi_coord veh_coord)

/-- Python truthiness of the `Optional[str]` value `poi_id` tested by
`if not poi_id` (line 196): `None` and the empty string are falsy. -/
def pyTruthyStr : Option SiteId → Bool
  | none => false
  | some s => decide (s ≠ "")

/-- Errors the loop body can raise at runtime. -/
inductive LoopError : Type
  | keyError (s : SiteId)
  | zeroDivision
  deriving DecidableEq

/-- The body of the per-vehicle loop (lines 188-198) for a single entry
`(key, coordinates_veh)` of `getAllSubscriptionResults()`:
`poi_id = vehicles.get(key, None)`; when
`not poi_id or (check and check_connection(poi_pos[poi_id], coordinates_veh,
args.distance))` holds, `vehicles[key] = new_cell_site(...)`.  The
short-circuit evaluation is made explicit; `poi_pos[poi_id]` raises
`KeyError` when the site id is not in the registry. -/
def stepVehicle (d : Pos → Pos → ℚ) (poi_pos : Registry) (max_dist : ℚ)
    (check : Bool) (vehicles : VehMap) (key : VehId) (coordinates_veh : Pos) :
    Except LoopError VehMap :=
  let poi_id : Option SiteId := (lookupA vehicles key).getD none
  if pyTruthyStr poi_id = false then
    .ok (insertA vehicles key (new_cell_site d poi_pos coordinates_veh max_dist))
  else if check then
    match poi_id with
    | some s =>
        match lookupA poi_pos s with
        | some poi_coord =>
            if check_connection d poi_coord coordinates_veh max_dist then
              .ok (insertA vehicles key
                    (new_cell_site d poi_pos coordinates_veh max_dist))
            else .ok vehicles
        | none => .error (.keyError s)
    | none => .ok vehicles
  else .ok vehicles

/-- The whole subscription-results loop of a step (lines 188-198), over the
reported `(vehicle id, position)` pairs in dict iteration order. -/
def processReports (d : Pos → Pos → ℚ) (poi_pos : Registry) (max_dist : ℚ)
    (check : Bool) : VehMap → List (VehId × Pos) → Except LoopError VehMap
  | m, [] => .ok m
  | m, (k, c) :: rest =>
      match stepVehicle d poi_pos max_dist check m k c with
      | .ok m' => processReports d poi_pos max_dist check m' rest
      | .error e => .error e

/-- `try: del vehicles[veh_id] except: print(...)` (lines 170-173 and
178-181): remove the record when present; a missing key only prints a
diagnostic.  The boolean records whether the diagnostic was printed. -/
def delVehicle (vehicles : VehMap) (veh_id : VehId) : VehMap × Bool :=
  match lookupA vehicles veh_id with
  | some _ => (eraseA vehicles veh_id, false)
  | none => (vehicles, true)

/-- Removal loop over a reported id list (arrived or teleported vehicles). -/
def removeAll (vehicles : VehMap) : List VehId → VehMap
  | [] => vehicles
  | v :: rest => removeAll (delVehicle vehicles v).1 rest

/-- `check = True if step % args.step == 0 else False` (line 165), with
Python semantics: `%` is the floor-division remainder (`Int.fmod`) and a zero
divisor raises `ZeroDivisionError`. -/
def checkOfStep (step : ℕ) (interval : ℤ) : Except LoopError Bool :=
  if interval = 0 then .error .zeroDivision
  else .ok (decide (Int.fmod (step : ℤ) interval = 0))

/-- The events the simulation oracle reports during one step: arrived ids,
teleport-ending ids, and the position subscription results. -/
structure StepEvents : Type where
  arrived : List VehId
  teleported : List VehId
  reports : List (VehId × Pos)

/-- One iteration of the main loop (lines 164-201): compute `check`, delete
arrived then teleported vehicles, resolve the reported vehicles, and return
the new tracker state together with the `check` flag that gates
`write_positions`. -/
def simStep (d : Pos → Pos → ℚ) (poi_pos : Registry) (max_dist : ℚ)
    (interval : ℤ) (step : ℕ) (vehicles : VehMap) (ev : StepEvents) :
    Except LoopError (VehMap × Bool) :=
  match checkOfStep step interval with
  | .error e => .error e
  | .ok check =>
      let m1 := removeAll vehicles ev.arrived
      let m2 := removeAll m1 ev.teleported
      match processReports d poi_pos max_dist check m2 ev.reports with
      | .ok m3 => .ok (m3, check)
      | .error e => .error e

/-- The main loop `for step in range(args.time+1)` (lines 164-201), run from
a given step counter and tracker state over the oracle's event trace. -/
def runSteps (d : Pos → Pos → ℚ) (poi_pos : Registry) (max_dist : ℚ)
    (interval : ℤ) : ℕ → VehMap → List StepEvents → Except LoopError VehMap
  | _, m, [] => .ok m
  | step, m, ev :: rest =>
      match simStep d poi_pos max_dist interval step m ev with
      | .ok mc => runSteps d poi_pos max_dist interval (step + 1) mc.1 rest
      | .error e => .error e

/-- `write_positions(vehicles, step, file_path)` (lines 65-81): the rows
appended to the output file, one per tracked vehicle. -/
def write_positions (vehicles : VehMap) (step : ℕ) :
    List (ℕ × VehId × Option SiteId) :=
  vehicles.map (fun kv => (step, kv.1, kv.2))

/-- The command-line values consumed by `main` that decide setup and the
loop: `cell_sites`, `step`, `distance`, `input`, `sumo_net`
(lines 89-109; `argparse` leaves an omitted option `None`). -/
structure Args : Type where
  cell_sites : Option ℤ
  step : ℤ
  distance : ℤ
  input : Option String
  sumo_net : Option String

/-- The startup `TypeError`s `main` can raise while building the registry
(lines 134-160). -/
inductive StartupError : Type
  | missingNet
  | missingSiteSource
  deriving DecidableEq

/-- Which registry-construction branch `main` takes. -/
inductive SiteMode : Type
  | fromFile
  | synthetic (n : ℤ)
  deriving DecidableEq

/-- Python truthiness of an `Optional[str]` argument such as `args.input`. -/
def pyTruthyOptStr : Option String → Bool
  | none => false
  | some s => decide (s ≠ "")

/-- Python truthiness of an `Optional[int]` argument such as the cell-site
count: `None` and `0` are falsy. -/
def pyTruthyOptInt : Option ℤ → Bool
  | none => false
  | some n => decide (n ≠ 0)

/-- The site-source selection of `main` (lines 134-160): `if args.input:`
take the file branch, raising `TypeError` when `args.sumo_net is None`;
`elif args.cell_sites:` take the synthetic branch; otherwise raise the
missing-source `TypeError`. -/
def selectSiteMode (args : Args) : Except StartupError SiteMode :=
  if pyTruthyOptStr args.input then
    if args.sumo_net = none then .error .missingNet
    else .ok .fromFile
  else if pyTruthyOptInt args.cell_sites then
    .ok (.synthetic (args.cell_sites.getD 0))
  else .error .missingSiteSource

/-- The synthetic-generation loop `for i in range(args.cell_sites)` (lines
150-157): per iteration one `libsumo.poi.add(str(i), x, y, red)` call and one
row appended to `output_sites_pos.csv`, with `x = randint(x_min, x_max)` and
`y = randint(y_min, y_max)`.  The random draws are an oracle `rng`; the first
component of the result lists the added sites, the second the csv rows. -/
def gen_loop (rng : ℕ → ℤ × ℤ) :
    ℕ → List (String × ℤ × ℤ) × List (String × ℤ × ℤ)
  | 0 => ([], [])
  | i + 1 =>
      let prev := gen_loop rng i
      let x := (rng i).1
      let y := (rng i).2
      (prev.1 ++ [(toString i, x, y)], prev.2 ++ [(toString i, x, y)])

/-- The value `b` is the distance from `veh_coord` to the site nearest to it
in the registry `l`, and `i` is the id of the first site in registry
iteration order at that distance: the sites before it are strictly farther,
and no site is nearer. -/
def IsFirstMin (d : Pos → Pos → ℚ) (veh_coord : Pos) (l : Registry)
    (i : SiteId) (b : ℚ) : Prop :=
  (∃ l₁ p l₂, l = l₁ ++ (i, p) :: l₂ ∧ d p veh_coord = b ∧
    ∀ q ∈ l₁, b < d q.2 veh_coord) ∧
  ∀ q ∈ l, b ≤ d q.2 veh_coord

/-- Every site id stored in the tracker is a key of the registry (`none`
values excluded): the invariant behind the safety of the registry lookup
`poi_pos[poi_id]` on line 196. -/
def ValuesOk (poi_pos : Registry) (m : VehMap) : Prop :=
  ∀ kv ∈ m, ∀ s : SiteId, kv.2 = some s → (lookupA poi_pos s).isSome

/-- A concrete metric used to instantiate the oracle parameter `d` on closed
runs: distance `0` when the vehicle sits exactly on the site, `1` otherwise.
Any metric is admissible for the oracle, and this one keeps every concrete
state computation kernel-reducible. -/
def dDisc (p q : Pos) : ℚ := if p = q then 0 else 1

/-- Either kind of failure of a whole run. -/
abbrev ProgError := StartupError ⊕ LoopError

/-- The shape of `main` relevant to the claims: registry construction happens
before the loop (lines 134-160 before lines 164-201), so any startup error
pre-empts the loop, and a loop error happens only after startup succeeded.
`buildRegistry` stands for the oracle-dependent registry contents (file
parsing or random placement followed by `libsumo.poi.getPosition`,
line 162). -/
def pyMain (d : Pos → Pos → ℚ) (args : Args)
    (buildRegistry : SiteMode → Registry) (events : List StepEvents) :
    Except ProgError VehMap :=
  match selectSiteMode args with
  | .error e => .error (.inl e)
  | .ok mode =>
      match runSteps d (buildRegistry mode) (args.distance : ℚ) args.step 0 []
          events with
      | .ok m => .ok m
      | .error e => .error (.inr e)

/-! ### Association-list lemmas -/

theorem lookupA_insertA_self {α β : Type} [DecidableEq α]
    (m : List (α × β)) (k : α) (v : β) : lookupA (insertA m k v) k = some v := by
  induction m with
  | nil => simp [insertA, lookupA]
  | cons kv rest ih =>
      by_cases h : kv.1 = k
      · simp [insertA, lookupA, h]
      · simpa [insertA, lookupA, h] using ih

theorem lookupA_insertA_ne {α β : Type} [DecidableEq α]
    (m : List (α × β)) (k k' : α) (v : β) (h : k ≠ k') :
    lookupA (insertA m k v) k' = lookupA m k' := by
  induction m with
  | nil => simp [insertA, lookupA, h]
  | cons kv rest ih =>
      by_cases hk : kv.1 = k
      · simp [insertA, lookupA, hk, h]
      · by_cases hk' : kv.1 = k'
        · simp [insertA, lookupA, hk, hk', Ne.symm h]
        · simpa [insertA, lookupA, hk, hk'] using ih

theorem lookupA_eraseA_ne {α β : Type} [DecidableEq α]
    (m : List (α × β)) (k k' : α) (h : k ≠ k') :
    lookupA (eraseA m k) k' = lookupA m k' := by
  induction m with
  | nil => simp [eraseA]
  | cons kv rest ih =>
      by_cases hk : kv.1 = k
      · have : kv.1 ≠ k' := by rw [hk]; exact h
        simp [eraseA, lookupA, hk, this, h]
      · by_cases hk' : kv.1 = k'
        · simp [eraseA, lookupA, hk, hk', Ne.symm h]
        · simpa [eraseA, lookupA, hk, hk'] using ih

theorem lookupA_eq_none_of_not_memKeys {α β : Type} [DecidableEq α]
    (m : List (α × β)) (k : α) (h : k ∉ m.map Prod.fst) :
    lookupA m k = none := by
  induction m with
  | nil => simp [lookupA]
  | cons kv rest ih =>
      have h1 : kv.1 ≠ k := by
        intro he; exact h (by simp [he])
      have h2 : k ∉ rest.map Prod.fst := by
        intro hm; exact h (by simp [hm])
      simpa [lookupA, h1] using ih h2

theorem lookupA_eraseA_self_of_nodup {α β : Type} [DecidableEq α]
    (m : List (α × β)) (hm : (m.map Prod.fst).Nodup) (k : α) :
    lookupA (eraseA m k) k = none := by
  induction m with
  | nil => simp [eraseA, lookupA]
  | cons kv rest ih =>
      have hrest : (rest.map Prod.fst).Nodup := (List.nodup_cons.mp hm).2
      by_cases hk : kv.1 = k
      · have hnot : kv.1 ∉ rest.map Prod.fst := (List.nodup_cons.mp hm).1
        rw [eraseA]
        simp only [hk, if_pos rfl]
        exact lookupA_eq_none_of_not_memKeys rest k (hk ▸ hnot)
      · simpa [eraseA, lookupA, hk] using ih hrest

theorem mem_of_mem_eraseA {α β : Type} [DecidableEq α]
    (m : List (α × β)) (k : α) (kv : α × β) (h : kv ∈ eraseA m k) : kv ∈ m := by
  induction m with
  | nil => simp [eraseA] at h
  | cons hd rest ih =>
      by_cases hk : hd.1 = k
      · rw [eraseA, if_pos hk] at h
        exact List.mem_cons_of_mem _ h
      · rw [eraseA, if_neg hk] at h
        rcases List.mem_cons.mp h with h1 | h1
        · exact h1 ▸ List.mem_cons_self _ _
        · exact List.mem_cons_of_mem _ (ih h1)

theorem mem_of_mem_insertA {α β : Type} [DecidableEq α]
    (m : List (α × β)) (k : α) (v : β) (kv : α × β) (h : kv ∈ insertA m k v) :
    kv = (k, v) ∨ kv ∈ m := by
  induction m with
  | nil => simpa [insertA] using h
  | cons hd rest ih =>
      by_cases hk : hd.1 = k
      · rw [insertA, if_pos hk] at h
        rcases List.mem_cons.mp h with h1 | h1
        · left; rw [h1, hk]
        · right; exact List.mem_cons_of_mem _ h1
      · rw [insertA, if_neg hk] at h
        rcases List.mem_cons.mp h with h1 | h1
        · right; exact h1 ▸ List.mem_cons_self _ _
        · rcases ih h1 with h2 | h2
          · exact Or.inl h2
          · exact Or.inr (List.mem_cons_of_mem _ h2)

/-! ### Specification of the scanning loop of `new_cell_site` -/

theorem scan_min_acc_spec (d : Pos → Pos → ℚ) (v : Pos) (l : Registry) :
    ∀ (i₀ : SiteId) (b₀ : ℚ),
    ∃ i b, scan_min d v l (some (i₀, b₀)) = some (i, b) ∧ b ≤ b₀ ∧
      ((i = i₀ ∧ b = b₀ ∧ ∀ q ∈ l, b₀ ≤ d q.2 v) ∨
        (b < b₀ ∧ IsFirstMin d v l i b)) := by
  induction l with
  | nil =>
      intro i₀ b₀
      exact ⟨i₀, b₀, rfl, le_refl _, Or.inl ⟨rfl, rfl, by simp⟩⟩
  | cons sp rest ih =>
      intro i₀ b₀
      by_cases hlt : d sp.2 v < b₀
      · obtain ⟨i, b, hrun, hle, hcase⟩ := ih sp.1 (d sp.2 v)
        refine ⟨i, b, ?_, hle.trans hlt.le, Or.inr ⟨lt_of_le_of_lt hle hlt, ?_⟩⟩
        · simpa [scan_min, hlt] using hrun
        · rcases hcase with ⟨hi, hb, hall⟩ | ⟨hblt, hfm⟩
          · refine ⟨⟨[], sp.2, rest, by simp [hi], hb.symm, by simp⟩, ?_⟩
            intro q hq
            rcases List.mem_cons.mp hq with h1 | h1
            · rw [h1, hb]
            · exact hb ▸ hall q h1
          · obtain ⟨⟨l₁, p, l₂, heq, hd, hfirst⟩, hallb⟩ := hfm
            refine ⟨⟨sp :: l₁, p, l₂, by rw [heq]; rfl, hd, ?_⟩, ?_⟩
            · intro q hq
              rcases List.mem_cons.mp hq with h1 | h1
              · rw [h1]; exact hblt
              · exact hfirst q h1
            · intro q hq
              rcases List.mem_cons.mp hq with h1 | h1
              · rw [h1]; exact hblt.le
              · exact hallb q h1
      · obtain ⟨i, b, hrun, hle, hcase⟩ := ih i₀ b₀
        refine ⟨i, b, ?_, hle, ?_⟩
        · simpa [scan_min, hlt] using hrun
        · rcases hcase with ⟨hi, hb, hall⟩ | ⟨hblt, hfm⟩
          · refine Or.inl ⟨hi, hb, ?_⟩
            intro q hq
            rcases List.mem_cons.mp hq with h1 | h1
            · rw [h1]; exact le_of_not_lt hlt
            · exact hall q h1
          · obtain ⟨⟨l₁, p, l₂, heq, hd, hfirst⟩, hallb⟩ := hfm
            refine Or.inr ⟨hblt, ⟨sp :: l₁, p, l₂, by rw [heq]; rfl, hd, ?_⟩, ?_⟩
            · intro q hq
              rcases List.mem_cons.mp hq with h1 | h1
              · rw [h1]; exact hblt.trans_le (le_of_not_lt hlt)
              · exact hfirst q h1
            · intro q hq
              rcases List.mem_cons.mp hq with h1 | h1
              · rw [h1]; exact (hblt.trans_le (le_of_not_lt hlt)).le
              · exact hallb q h1

theorem scan_min_none_spec (d : Pos → Pos → ℚ) (v : Pos) (l : Registry)
    (hne : l ≠ []) :
    ∃ i b, scan_min d v l none = some (i, b) ∧ IsFirstMin d v l i b := by
  cases l with
  | nil => exact absurd rfl hne
  | cons sp rest =>
      obtain ⟨i, b, hrun, hle, hcase⟩ := scan_min_acc_spec d v rest sp.1 (d sp.2 v)
      refine ⟨i, b, by simpa [scan_min] using hrun, ?_⟩
      rcases hcase with ⟨hi, hb, hall⟩ | ⟨hblt, hfm⟩
      · refine ⟨⟨[], sp.2, rest, by simp [hi], hb.symm, by simp⟩, ?_⟩
        intro q hq
        rcases List.mem_cons.mp hq with h1 | h1
        · rw [h1, hb]
        · exact hb ▸ hall q h1
      · obtain ⟨⟨l₁, p, l₂, heq, hd, hfirst⟩, hallb⟩ := hfm
        refine ⟨⟨sp :: l₁, p, l₂, by rw [heq]; rfl, hd, ?_⟩, ?_⟩
        · intro q hq
          rcases List.mem_cons.mp hq with h1 | h1
          · rw [h1]; exact hblt
          · exact hfirst q h1
        · intro q hq
          rcases List.mem_cons.mp hq with h1 | h1
          · rw [h1]; exact hblt.le
          · exact hallb q h1

theorem scan_min_empty (d : Pos → Pos → ℚ) (v : Pos) :
    scan_min d v [] none = none := rfl

/-- Any id returned by `new_cell_site` is the id of a registry entry. -/
theorem new_cell_site_mem (d : Pos → Pos → ℚ) (poi_pos : Registry)
    (veh_coord : Pos) (max_dist : ℚ) (i : SiteId)
    (h : new_cell_site d poi_pos veh_coord max_dist = some i) :
    ∃ p, (i, p) ∈ poi_pos := by
  rcases hne : poi_pos with _ | ⟨sp, rest⟩
  · rw [hne] at h
    simp [new_cell_site, scan_min] at h
  · rw [hne] at h
    obtain ⟨i', b, hrun, hfm⟩ :=
      scan_min_none_spec d veh_coord (sp :: rest) (by simp)
    rw [new_cell_site, hrun] at h
    dsimp only at h
    by_cases hb : b ≤ max_dist
    · rw [if_pos hb] at h
      obtain ⟨⟨l₁, p, l₂, heq, -, -⟩, -⟩ := hfm
      refine ⟨p, ?_⟩
      rw [Option.some.injEq] at h
      rw [← h, heq]
      simp
    · rw [if_neg hb] at h
      exact absurd h (by simp)

theorem lookupA_isSome_of_mem {α β : Type} [DecidableEq α]
    (m : List (α × β)) (kv : α × β) (h : kv ∈ m) :
    (lookupA m kv.1).isSome := by
  induction m with
  | nil => simp at h
  | cons hd rest ih =>
      by_cases hk : hd.1 = kv.1
      · simp [lookupA, hk]
      · rcases List.mem_cons.mp h with h1 | h1
        · exact absurd (by rw [h1]) hk
        · simpa [lookupA, hk] using ih h1

/-! ### Per-vehicle step lemmas -/

theorem lookupA_mem {α β : Type} [DecidableEq α]
    (m : List (α × β)) (k : α) (v : β) (h : lookupA m k = some v) :
    (k, v) ∈ m := by
  induction m with
  | nil => simp [lookupA] at h
  | cons kv rest ih =>
      by_cases hk : kv.1 = k
      · rw [lookupA, if_pos hk, Option.some.injEq] at h
        exact List.mem_cons.mpr (Or.inl (by rw [← hk, ← h]))
      · rw [lookupA, if_neg hk] at h
        exact List.mem_cons_of_mem _ (ih h)

theorem stepVehicle_absent (d : Pos → Pos → ℚ) (poi_pos : Registry)
    (max_dist : ℚ) (check : Bool) (m : VehMap) (key : VehId) (c : Pos)
    (h : lookupA m key = none) :
    stepVehicle d poi_pos max_dist check m key c =
      .ok (insertA m key (new_cell_site d poi_pos c max_dist)) := by
  simp [stepVehicle, h, pyTruthyStr]

theorem stepVehicle_unassoc (d : Pos → Pos → ℚ) (poi_pos : Registry)
    (max_dist : ℚ) (check : Bool) (m : VehMap) (key : VehId) (c : Pos)
    (h : lookupA m key = some none) :
    stepVehicle d poi_pos max_dist check m key c =
      .ok (insertA m key (new_cell_site d poi_pos c max_dist)) := by
  simp [stepVehicle, h, pyTruthyStr]

theorem stepVehicle_assigned_not_check (d : Pos → Pos → ℚ)
    (poi_pos : Registry) (max_dist : ℚ) (m : VehMap) (key : VehId) (c : Pos)
    (s : SiteId) (hrec : lookupA m key = some (some s)) (hs : s ≠ "") :
    stepVehicle d poi_pos max_dist false m key c = .ok m := by
  simp [stepVehicle, hrec, pyTruthyStr, hs]

theorem stepVehicle_assigned_check (d : Pos → Pos → ℚ) (poi_pos : Registry)
    (max_dist : ℚ) (m : VehMap) (key : VehId) (c : Pos) (s : SiteId) (p : Pos)
    (hrec : lookupA m key = some (some s)) (hs : s ≠ "")
    (hp : lookupA poi_pos s = some p) :
    stepVehicle d poi_pos max_dist true m key c =
      if max_dist < d p c then
        .ok (insertA m key (new_cell_site d poi_pos c max_dist))
      else .ok m := by
  by_cases hfar : max_dist < d p c
  · simp [stepVehicle, hrec, pyTruthyStr, hs, hp, check_connection, hfar]
  · simp [stepVehicle, hrec, pyTruthyStr, hs, hp, check_connection, hfar]

/-- The per-vehicle step either leaves the tracker alone or assigns the
result of `new_cell_site` at the report's own key. -/
theorem stepVehicle_cases (d : Pos → Pos → ℚ) (poi_pos : Registry)
    (max_dist : ℚ) (check : Bool) (m m' : VehMap) (key : VehId) (c : Pos)
    (h : stepVehicle d poi_pos max_dist check m key c = .ok m') :
    m' = m ∨ m' = insertA m key (new_cell_site d poi_pos c max_dist) := by
  rw [stepVehicle] at h
  by_cases ht : pyTruthyStr ((lookupA m key).getD none) = false
  · rw [if_pos ht] at h
    right
    exact (Except.ok.injEq _ _ ▸ h).symm
  · rw [if_neg ht] at h
    by_cases hc : check
    · rw [if_pos hc] at h
      rcases hv : (lookupA m key).getD none with _ | s
      · rw [hv] at h
        left
        exact (Except.ok.injEq _ _ ▸ h).symm
      · rw [hv] at h
        dsimp only at h
        rcases hps : lookupA poi_pos s with _ | p
        · rw [hps] at h
          exact absurd h (by simp)
        · rw [hps] at h
          dsimp only at h
          by_cases hcc : check_connection d p c max_dist
          · rw [if_pos hcc] at h
            right
            exact (Except.ok.injEq _ _ ▸ h).symm
          · rw [if_neg hcc] at h
            left
            exact (Except.ok.injEq _ _ ▸ h).symm
    · rw [if_neg hc] at h
      left
      exact (Except.ok.injEq _ _ ▸ h).symm

/-- The per-vehicle step never touches the record of another vehicle. -/
theorem stepVehicle_lookup_other (d : Pos → Pos → ℚ) (poi_pos : Registry)
    (max_dist : ℚ) (check : Bool) (m m' : VehMap) (key k' : VehId) (c : Pos)
    (h : stepVehicle d poi_pos max_dist check m key c = .ok m')
    (hne : key ≠ k') : lookupA m' k' = lookupA m k' := by
  rcases stepVehicle_cases d poi_pos max_dist check m m' key c h with h1 | h1
  · rw [h1]
  · rw [h1]
    exact lookupA_insertA_ne m key k' _ hne

/-- The per-vehicle step never removes a record. -/
theorem stepVehicle_isSome (d : Pos → Pos → ℚ) (poi_pos : Registry)
    (max_dist : ℚ) (check : Bool) (m m' : VehMap) (key k' : VehId) (c : Pos)
    (h : stepVehicle d poi_pos max_dist check m key c = .ok m')
    (hk : (lookupA m k').isSome) : (lookupA m' k').isSome := by
  rcases stepVehicle_cases d poi_pos max_dist check m m' key c h with h1 | h1
  · rw [h1]; exact hk
  · rw [h1]
    by_cases he : key = k'
    · rw [← he, lookupA_insertA_self]; rfl
    · rw [lookupA_insertA_ne m key k' _ he]; exact hk

/-! ### Report-loop lemmas -/

theorem processReports_append (d : Pos → Pos → ℚ) (poi_pos : Registry)
    (max_dist : ℚ) (check : Bool) (l₁ : List (VehId × Pos)) :
    ∀ (l₂ : List (VehId × Pos)) (m m' : VehMap),
    processReports d poi_pos max_dist check m (l₁ ++ l₂) = .ok m' →
    ∃ mid, processReports d poi_pos max_dist check m l₁ = .ok mid ∧
      processReports d poi_pos max_dist check mid l₂ = .ok m' := by
  induction l₁ with
  | nil =>
      intro l₂ m m' h
      exact ⟨m, rfl, h⟩
  | cons kc rest ih =>
      intro l₂ m m' h
      rcases kc with ⟨k, c⟩
      rw [List.cons_append, processReports] at h
      rcases hs : stepVehicle d poi_pos max_dist check m k c with e | m₁
      · rw [hs] at h; exact absurd h (by simp)
      · rw [hs] at h
        dsimp only at h
        obtain ⟨mid, h1, h2⟩ := ih l₂ m₁ m' h
        refine ⟨mid, ?_, h2⟩
        rw [processReports, hs]
        exact h1

theorem processReports_lookup_not_mentioned (d : Pos → Pos → ℚ)
    (poi_pos : Registry) (max_dist : ℚ) (check : Bool)
    (l : List (VehId × Pos)) :
    ∀ (m m' : VehMap) (key : VehId),
    processReports d poi_pos max_dist check m l = .ok m' →
    (∀ q ∈ l, q.1 ≠ key) → lookupA m' key = lookupA m key := by
  induction l with
  | nil =>
      intro m m' key h _
      rw [processReports, Except.ok.injEq] at h
      rw [h]
  | cons kc rest ih =>
      intro m m' key h hne
      rcases kc with ⟨k, c⟩
      rw [processReports] at h
      rcases hs : stepVehicle d poi_pos max_dist check m k c with e | m₁
      · rw [hs] at h; exact absurd h (by simp)
      · rw [hs] at h
        dsimp only at h
        have h1 : lookupA m' key = lookupA m₁ key :=
          ih m₁ m' key h (fun q hq => hne q (List.mem_cons_of_mem _ hq))
        have h2 : lookupA m₁ key = lookupA m key :=
          stepVehicle_lookup_other d poi_pos max_dist check m m₁ k key c hs
            (hne (k, c) (List.mem_cons_self _ _))
        rw [h1, h2]

theorem processReports_isSome (d : Pos → Pos → ℚ) (poi_pos : Registry)
    (max_dist : ℚ) (check : Bool) (l : List (VehId × Pos)) :
    ∀ (m m' : VehMap) (key : VehId),
    processReports d poi_pos max_dist check m l = .ok m' →
    (lookupA m key).isSome → (lookupA m' key).isSome := by
  induction l with
  | nil =>
      intro m m' key h hk
      rw [processReports, Except.ok.injEq] at h
      rw [← h]; exact hk
  | cons kc rest ih =>
      intro m m' key h hk
      rcases kc with ⟨k, c⟩
      rw [processReports] at h
      rcases hs : stepVehicle d poi_pos max_dist check m k c with e | m₁
      · rw [hs] at h; exact absurd h (by simp)
      · rw [hs] at h
        dsimp only at h
        exact ih m₁ m' key h
          (stepVehicle_isSome d poi_pos max_dist check m m₁ k key c hs hk)

/-! ### Registry-membership invariant -/

theorem valuesOk_insert_resolved (poi_pos : Registry) (m : VehMap)
    (hm : ValuesOk poi_pos m) (d : Pos → Pos → ℚ) (key : VehId) (c : Pos)
    (max_dist : ℚ) :
    ValuesOk poi_pos (insertA m key (new_cell_site d poi_pos c max_dist)) := by
  intro kv hkv s hs
  rcases mem_of_mem_insertA m key _ kv hkv with h1 | h1
  · have hv : new_cell_site d poi_pos c max_dist = some s := by
      rw [← hs, h1]
    obtain ⟨p, hp⟩ := new_cell_site_mem d poi_pos c max_dist s hv
    exact lookupA_isSome_of_mem poi_pos (s, p) hp
  · exact hm kv h1 s hs

theorem valuesOk_eraseA (poi_pos : Registry) (m : VehMap)
    (hm : ValuesOk poi_pos m) (k : VehId) :
    ValuesOk poi_pos (eraseA m k) :=
  fun kv hkv s hs => hm kv (mem_of_mem_eraseA m k kv hkv) s hs

theorem valuesOk_delVehicle (poi_pos : Registry) (m : VehMap)
    (hm : ValuesOk poi_pos m) (k : VehId) :
    ValuesOk poi_pos (delVehicle m k).1 := by
  rw [delVehicle]
  rcases lookupA m k with _ | v
  · exact hm
  · exact valuesOk_eraseA poi_pos m hm k

theorem valuesOk_removeAll (poi_pos : Registry) (l : List VehId) :
    ∀ (m : VehMap), ValuesOk poi_pos m → ValuesOk poi_pos (removeAll m l) := by
  induction l with
  | nil => intro m hm; exact hm
  | cons v rest ih =>
      intro m hm
      exact ih _ (valuesOk_delVehicle poi_pos m hm v)

/-- Under the invariant, the per-vehicle step cannot raise `KeyError` and
preserves the invariant. -/
theorem stepVehicle_total (d : Pos → Pos → ℚ) (poi_pos : Registry)
    (max_dist : ℚ) (check : Bool) (m : VehMap) (key : VehId) (c : Pos)
    (hm : ValuesOk poi_pos m) :
    ∃ m', stepVehicle d poi_pos max_dist check m key c = .ok m' ∧
      ValuesOk poi_pos m' := by
  rw [stepVehicle]
  rcases hv : (lookupA m key).getD none with _ | s
  · exact ⟨_, by simp [pyTruthyStr, hv], valuesOk_insert_resolved poi_pos m hm d key c max_dist⟩
  · by_cases hs : s = ""
    · exact ⟨_, by simp [pyTruthyStr, hv, hs], valuesOk_insert_resolved poi_pos m hm d key c max_dist⟩
    · have hrec : lookupA m key = some (some s) := by
        rcases hl : lookupA m key with _ | v
        · rw [hl] at hv; simp at hv
        · rw [hl] at hv
          rw [Option.getD_some] at hv
          rw [hv]
      have hmem : (key, some s) ∈ m := lookupA_mem m key (some s) hrec
      have hps : (lookupA poi_pos s).isSome := hm (key, some s) hmem s rfl
      rcases hp : lookupA poi_pos s with _ | p
      · rw [hp] at hps; simp at hps
      · by_cases hc : check
        · by_cases hcc : check_connection d p c max_dist
          · refine ⟨_, ?_, valuesOk_insert_resolved poi_pos m hm d key c max_dist⟩
            simp [pyTruthyStr, hv, hs, hc, hp, hcc]
          · refine ⟨m, ?_, hm⟩
            simp [pyTruthyStr, hv, hs, hc, hp, hcc]
        · refine ⟨m, ?_, hm⟩
          simp [pyTruthyStr, hv, hs, hc]

theorem processReports_total (d : Pos → Pos → ℚ) (poi_pos : Registry)
    (max_dist : ℚ) (check : Bool) (l : List (VehId × Pos)) :
    ∀ (m : VehMap), ValuesOk poi_pos m →
    ∃ m', processReports d poi_pos max_dist check m l = .ok m' ∧
      ValuesOk poi_pos m' := by
  induction l with
  | nil => intro m hm; exact ⟨m, rfl, hm⟩
  | cons kc rest ih =>
      intro m hm
      rcases kc with ⟨k, c⟩
      obtain ⟨m₁, hs, hm₁⟩ := stepVehicle_total d poi_pos max_dist check m k c hm
      obtain ⟨m', hrest, hm'⟩ := ih m₁ hm₁
      refine ⟨m', ?_, hm'⟩
      rw [processReports, hs]
      exact hrest

theorem simStep_total (d : Pos → Pos → ℚ) (poi_pos : Registry)
    (max_dist : ℚ) (interval : ℤ) (hi : interval ≠ 0) (step : ℕ) (m : VehMap)
    (ev : StepEvents) (hm : ValuesOk poi_pos m) :
    ∃ m' check, simStep d poi_pos max_dist interval step m ev = .ok (m', check) ∧
      ValuesOk poi_pos m' := by
  have hm2 : ValuesOk poi_pos (removeAll (removeAll m ev.arrived) ev.teleported) :=
    valuesOk_removeAll poi_pos ev.teleported _
      (valuesOk_removeAll poi_pos ev.arrived m hm)
  obtain ⟨m', hrep, hm'⟩ := processReports_total d poi_pos max_dist
    (decide (Int.fmod (step : ℤ) interval = 0)) ev.reports _ hm2
  refine ⟨m', decide (Int.fmod (step : ℤ) interval = 0), ?_, hm'⟩
  rw [simStep, checkOfStep, if_neg hi]
  dsimp only
  rw [hrep]

theorem runSteps_total (d : Pos → Pos → ℚ) (poi_pos : Registry)
    (max_dist : ℚ) (interval : ℤ) (hi : interval ≠ 0)
    (events : List StepEvents) :
    ∀ (step : ℕ) (m : VehMap), ValuesOk poi_pos m →
    ∃ m', runSteps d poi_pos max_dist interval step m events = .ok m' ∧
      ValuesOk poi_pos m' := by
  induction events with
  | nil => intro step m hm; exact ⟨m, rfl, hm⟩
  | cons ev rest ih =>
      intro step m hm
      obtain ⟨m₁, check, hstep, hm₁⟩ :=
        simStep_total d poi_pos max_dist interval hi step m ev hm
      obtain ⟨m', hrest, hm'⟩ := ih (step + 1) m₁ hm₁
      refine ⟨m', ?_, hm'⟩
      rw [runSteps, hstep]
      exact hrest

/-! ### Remaining helper lemmas -/

/-- Python's `a % b == 0` test succeeds exactly when `b` divides `a`
(for any sign of `b`; `b = 0` raises before the test). -/
theorem fmod_eq_zero_iff_dvd (a b : ℤ) : Int.fmod a b = 0 ↔ b ∣ a := by
  constructor
  · intro h
    have h2 := Int.fmod_add_fdiv a b
    rw [h, zero_add] at h2
    exact ⟨a.fdiv b, h2.symm⟩
  · rintro ⟨k, rfl⟩
    exact Int.mul_fmod_right b k

theorem gen_loop_spec (rng : ℕ → ℤ × ℤ) (x_min x_max y_min y_max : ℤ) :
    ∀ n : ℕ,
    (∀ i, i < n → x_min ≤ (rng i).1 ∧ (rng i).1 ≤ x_max ∧
      y_min ≤ (rng i).2 ∧ (rng i).2 ≤ y_max) →
    (gen_loop rng n).1.length = n ∧ (gen_loop rng n).2 = (gen_loop rng n).1 ∧
    ∀ r ∈ (gen_loop rng n).2,
      x_min ≤ r.2.1 ∧ r.2.1 ≤ x_max ∧ y_min ≤ r.2.2 ∧ r.2.2 ≤ y_max := by
  intro n
  induction n with
  | zero =>
      intro _
      exact ⟨rfl, rfl, by simp [gen_loop]⟩
  | succ k ih =>
      intro hrng
      obtain ⟨hlen, heq, hmem⟩ := ih (fun i hi => hrng i (hi.trans (Nat.lt_succ_self k)))
      refine ⟨?_, ?_, ?_⟩
      · rw [gen_loop]
        simpa using hlen
      · rw [gen_loop]
        dsimp only
        rw [heq]
      · intro r hr
        rw [gen_loop] at hr
        dsimp only at hr
        rcases List.mem_append.mp hr with h1 | h1
        · exact hmem r h1
        · have h2 : r = (toString k, (rng k).1, (rng k).2) := by simpa using h1
          rw [h2]
          exact hrng k (Nat.lt_succ_self k)

/-! ### The claims -/

/-- C1: the claim states that on a non-check step no existing record's site
id changes, whether the record is ASSIGNED or UNASSOCIATED.  The code
violates it: the guard `not poi_id` is a falsiness test, so an existing
UNASSOCIATED record (value `None`) is re-resolved on every step.  Here step
1 with check interval 2 is not a check step (the returned flag is `false`),
the tracker enters the step with the existing record `("v", none)`, and
leaves it with `("v", some "0")`: the record changed outside a check step. -/
theorem C1_unassociated_record_changes_on_non_check_step :
    simStep dDisc [("0", ((0 : ℚ), (0 : ℚ)))] 100 2 1 [("v", none)]
        ⟨[], [], [("v", ((0 : ℚ), (0 : ℚ)))]⟩ =
      .ok ([("v", some "0")], false) := by decide

/-- C2: for a non-empty registry, `new_cell_site` returns the id of the site
at minimum distance from the position, the first one in registry iteration
order among ties, when that minimum is at most `max_dist`; it returns `None`
when the minimum exceeds `max_dist`. -/
theorem C2_new_cell_site_nearest (d : Pos → Pos → ℚ) (poi_pos : Registry)
    (hne : poi_pos ≠ []) (veh_coord : Pos) (max_dist : ℚ) :
    ∃ i b, IsFirstMin d veh_coord poi_pos i b ∧
      new_cell_site d poi_pos veh_coord max_dist =
        if b ≤ max_dist then some i else none := by
  obtain ⟨i, b, hrun, hfm⟩ := scan_min_none_spec d veh_coord poi_pos hne
  exact ⟨i, b, hfm, by rw [new_cell_site, hrun]⟩

theorem C2_witness :
    ∃ i b,
      IsFirstMin dDisc ((0 : ℚ), (0 : ℚ))
        [("a", ((5 : ℚ), (0 : ℚ))), ("b", ((6 : ℚ), (0 : ℚ)))] i b ∧
      new_cell_site dDisc [("a", ((5 : ℚ), (0 : ℚ))), ("b", ((6 : ℚ), (0 : ℚ)))]
          ((0 : ℚ), (0 : ℚ)) 100 =
        if b ≤ 100 then some i else none :=
  C2_new_cell_site_nearest dDisc _ (by decide) _ 100

/-- C5: removing a vehicle id from the tracker never raises: removal of an
id never added changes nothing and only logs, removing twice leaves the id
absent with the second removal only logging, and every other id's record is
untouched. -/
theorem C5_removal_idempotent (m : VehMap) (hm : (m.map Prod.fst).Nodup)
    (veh_id : VehId) :
    (lookupA m veh_id = none → delVehicle m veh_id = (m, true)) ∧
    lookupA (delVehicle (delVehicle m veh_id).1 veh_id).1 veh_id = none ∧
    (delVehicle (delVehicle m veh_id).1 veh_id).2 = true ∧
    ∀ k, k ≠ veh_id →
      lookupA (delVehicle (delVehicle m veh_id).1 veh_id).1 k = lookupA m k := by
  rcases h0 : lookupA m veh_id with _ | v
  · have hdel : delVehicle m veh_id = (m, true) := by simp [delVehicle, h0]
    rw [hdel]
    dsimp only
    rw [hdel]
    exact ⟨fun _ => rfl, h0, rfl, fun k _ => rfl⟩
  · have hdel : delVehicle m veh_id = (eraseA m veh_id, false) := by
      simp [delVehicle, h0]
    have h1 : lookupA (eraseA m veh_id) veh_id = none :=
      lookupA_eraseA_self_of_nodup m hm veh_id
    have hdel2 : delVehicle (eraseA m veh_id) veh_id = (eraseA m veh_id, true) := by
      simp [delVehicle, h1]
    rw [hdel]
    dsimp only
    rw [hdel2]
    refine ⟨fun hc => Option.noConfusion hc, h1, rfl, ?_⟩
    intro k hk
    exact lookupA_eraseA_ne m veh_id k (Ne.symm hk)

theorem C5_witness :
    lookupA (delVehicle (delVehicle [("v", some "a"), ("u", none)] "v").1 "v").1 "u"
      = lookupA [("v", some "a"), ("u", none)] "u" :=
  (C5_removal_idempotent [("v", some "a"), ("u", none)] (by decide) "v").2.2.2
    "u" (by decide)

/-- C6 counterexample: the claim states that every non-positive check
interval fails with a configuration error at startup, before the loop, and
never manifests inside a step.  Here the interval is `0` (non-positive), a
valid site source is configured, startup succeeds, and the whole run fails
with the division-by-zero raised by `step % args.step` on the loop's first
step: the failure is a loop-side error (`Sum.inr`), not a startup
configuration error (`Sum.inl`). -/
theorem C6_counterexample :
    pyMain dDisc ⟨some 1, 0, 2000, none, none⟩
        (fun _ => [("0", ((0 : ℚ), (0 : ℚ)))]) [⟨[], [], []⟩] =
      .error (.inr .zeroDivision) := by decide

/-- C6 amended: the check interval is not validated at startup (the startup
site-source selection is independent of it); an interval of `0` raises a
division-by-zero inside the loop at every step, and a negative interval
never fails: the step's check test succeeds and marks the step as a check
step exactly when the interval divides the step number. -/
theorem C6_amended_interval_unvalidated (i : ℤ) (hineg : i < 0) (step : ℕ) :
    (∀ (cs : Option ℤ) (dist i' : ℤ) (inp net : Option String),
      selectSiteMode ⟨cs, i, dist, inp, net⟩ =
        selectSiteMode ⟨cs, i', dist, inp, net⟩) ∧
    checkOfStep step 0 = .error .zeroDivision ∧
    ∃ b, checkOfStep step i = .ok b ∧ (b = true ↔ i ∣ (step : ℤ)) := by
  refine ⟨fun _ _ _ _ _ => rfl, by simp [checkOfStep], ?_⟩
  refine ⟨decide (Int.fmod (step : ℤ) i = 0), ?_, ?_⟩
  · rw [checkOfStep, if_neg (by exact hineg.ne)]
  · rw [decide_eq_true_iff]
    exact fmod_eq_zero_iff_dvd (step : ℤ) i

theorem C6_witness :
    ∃ b, checkOfStep 4 (-2) = .ok b ∧ (b = true ↔ (-2 : ℤ) ∣ ((4 : ℕ) : ℤ)) :=
  (C6_amended_interval_unvalidated (-2) (by decide) 4).2.2

/-- C7 counterexample: the claim states that startup fails whenever both
site sources are supplied.  Here both the input sites file and a synthetic
count are supplied (together with the net file) and startup succeeds,
selecting the file branch: the count is silently ignored, exactly as the
script's own help text says. -/
theorem C7_counterexample :
    selectSiteMode ⟨some 5, 180, 2000, some "sites.csv", some "net.xml"⟩ =
      .ok .fromFile := by decide

/-- C7 amended: startup fails with a configuration error, before the loop
and with no partial run, when no site source is supplied or when a
file-based site list is supplied without the net reference; when both
sources are supplied the file takes precedence and the count is ignored
without error.  The last conjunct shows every startup error pre-empts the
loop: the run fails with that startup error for any event trace. -/
theorem C7_amended_startup_errors (a : Args) :
    (pyTruthyOptStr a.input = false → pyTruthyOptInt a.cell_sites = false →
      selectSiteMode a = .error .missingSiteSource) ∧
    (pyTruthyOptStr a.input = true → a.sumo_net = none →
      selectSiteMode a = .error .missingNet) ∧
    (pyTruthyOptStr a.input = true → a.sumo_net ≠ none →
      selectSiteMode a = .ok .fromFile) ∧
    (∀ e, selectSiteMode a = .error e →
      ∀ (d : Pos → Pos → ℚ) (br : SiteMode → Registry)
        (events : List StepEvents), pyMain d a br events = .error (.inl e)) := by
  refine ⟨?_, ?_, ?_, ?_⟩
  · intro h1 h2
    rw [selectSiteMode, if_neg (by rw [h1]; exact Bool.false_ne_true),
      if_neg (by rw [h2]; exact Bool.false_ne_true)]
  · intro h1 h2
    rw [selectSiteMode, if_pos h1, if_pos h2]
  · intro h1 h2
    rw [selectSiteMode, if_pos h1, if_neg h2]
  · intro e he d br events
    rw [pyMain, he]

theorem C7_witness :
    selectSiteMode ⟨none, 180, 2000, none, none⟩ = .error .missingSiteSource :=
  (C7_amended_startup_errors ⟨none, 180, 2000, none, none⟩).1 (by decide)
    (by decide)

/-- C3: on a check step, a vehicle ASSIGNED to site `s` keeps `s` when its
distance to `s`'s fixed position is at most `max_dist`; when that distance
exceeds `max_dist` it is re-resolved against the entire registry by
`new_cell_site`, receiving the first nearest site in registry iteration
order when one is within range and `None` (UNASSOCIATED) otherwise. -/
theorem C3_check_step_assigned (d : Pos → Pos → ℚ) (poi_pos : Registry)
    (max_dist : ℚ) (m : VehMap) (key : VehId) (c : Pos) (s : SiteId) (p : Pos)
    (hrec : lookupA m key = some (some s)) (hs : s ≠ "")
    (hp : lookupA poi_pos s = some p) :
    (d p c ≤ max_dist → stepVehicle d poi_pos max_dist true m key c = .ok m) ∧
    (max_dist < d p c →
      stepVehicle d poi_pos max_dist true m key c =
        .ok (insertA m key (new_cell_site d poi_pos c max_dist)) ∧
      ∃ i b, IsFirstMin d c poi_pos i b ∧
        new_cell_site d poi_pos c max_dist =
          if b ≤ max_dist then some i else none) := by
  have hstep := stepVehicle_assigned_check d poi_pos max_dist m key c s p hrec hs hp
  constructor
  · intro hnear
    rw [hstep, if_neg (not_lt.mpr hnear)]
  · intro hfar
    have hne : poi_pos ≠ [] := by
      intro hnil
      rw [hnil] at hp
      simp [lookupA] at hp
    obtain ⟨i, b, hrun, hfm⟩ := scan_min_none_spec d c poi_pos hne
    exact ⟨by rw [hstep, if_pos hfar], i, b, hfm, by rw [new_cell_site, hrun]⟩

theorem C3_witness :
    stepVehicle dDisc [("a", ((5 : ℚ), (0 : ℚ)))] 0 true [("v", some "a")] "v"
        ((0 : ℚ), (0 : ℚ)) =
      .ok (insertA [("v", some "a")] "v"
        (new_cell_site dDisc [("a", ((5 : ℚ), (0 : ℚ)))] ((0 : ℚ), (0 : ℚ)) 0)) :=
  ((C3_check_step_assigned dDisc [("a", ((5 : ℚ), (0 : ℚ)))] 0 [("v", some "a")]
      "v" ((0 : ℚ), (0 : ℚ)) "a" ((5 : ℚ), (0 : ℚ)) (by decide) (by decide)
      (by decide)).2 (by decide)).1

/-- C4: a vehicle reported with a position in a step while having no record
is resolved during that same step, whatever the check flag of the step is:
at the end of the report loop its record exists and holds exactly the result
of `new_cell_site` at its reported position. -/
theorem C4_new_vehicle_resolved_same_step (d : Pos → Pos → ℚ)
    (poi_pos : Registry) (max_dist : ℚ) (check : Bool) (m m' : VehMap)
    (l₁ l₂ : List (VehId × Pos)) (key : VehId) (c : Pos)
    (habsent : lookupA m key = none)
    (hl₁ : ∀ q ∈ l₁, q.1 ≠ key) (hl₂ : ∀ q ∈ l₂, q.1 ≠ key)
    (hrun : processReports d poi_pos max_dist check m (l₁ ++ (key, c) :: l₂) =
      .ok m') :
    lookupA m' key = some (new_cell_site d poi_pos c max_dist) := by
  obtain ⟨mid, h1, h2⟩ :=
    processReports_append d poi_pos max_dist check l₁ _ m m' hrun
  have hmid : lookupA mid key = none := by
    rw [processReports_lookup_not_mentioned d poi_pos max_dist check l₁ m mid
      key h1 hl₁]
    exact habsent
  rw [processReports,
    stepVehicle_absent d poi_pos max_dist check mid key c hmid] at h2
  dsimp only at h2
  rw [processReports_lookup_not_mentioned d poi_pos max_dist check l₂ _ m' key
    h2 hl₂]
  exact lookupA_insertA_self mid key _

theorem C4_witness :
    lookupA [("u", some "a"), ("v", some "a")] "v" =
      some (new_cell_site dDisc [("a", ((5 : ℚ), (0 : ℚ)))] ((5 : ℚ), (0 : ℚ))
        100) :=
  C4_new_vehicle_resolved_same_step dDisc [("a", ((5 : ℚ), (0 : ℚ)))] 100 false
    [] [("u", some "a"), ("v", some "a")] [("u", ((9 : ℚ), (9 : ℚ)))] [] "v"
    ((5 : ℚ), (0 : ℚ)) (by decide) (by decide) (by decide) (by decide)

/-- C8: the synthetic registry construction for a requested count `n ≥ 1`
adds exactly `n` sites and appends exactly `n` rows to the auxiliary
site-position output, and (given the randint contract that every draw lies
in the requested closed interval) every generated coordinate pair lies
inside the simulation's bounding box. -/
theorem C8_synthetic_round_trip (rng : ℕ → ℤ × ℤ)
    (x_min x_max y_min y_max : ℤ) (n : ℕ) (_hn : 1 ≤ n)
    (hrng : ∀ i, i < n → x_min ≤ (rng i).1 ∧ (rng i).1 ≤ x_max ∧
      y_min ≤ (rng i).2 ∧ (rng i).2 ≤ y_max) :
    (gen_loop rng n).1.length = n ∧ (gen_loop rng n).2.length = n ∧
    ∀ r ∈ (gen_loop rng n).2,
      x_min ≤ r.2.1 ∧ r.2.1 ≤ x_max ∧ y_min ≤ r.2.2 ∧ r.2.2 ≤ y_max := by
  obtain ⟨hlen, heq, hmem⟩ := gen_loop_spec rng x_min x_max y_min y_max n hrng
  exact ⟨hlen, by rw [heq, hlen], hmem⟩

theorem C8_witness :
    (gen_loop (fun i => ((i : ℤ), (i : ℤ))) 2).1.length = 2 ∧
    (gen_loop (fun i => ((i : ℤ), (i : ℤ))) 2).2.length = 2 ∧
    ∀ r ∈ (gen_loop (fun i => ((i : ℤ), (i : ℤ))) 2).2,
      0 ≤ r.2.1 ∧ r.2.1 ≤ 10 ∧ 0 ≤ r.2.2 ∧ r.2.2 ≤ 10 :=
  C8_synthetic_round_trip (fun i => ((i : ℤ), (i : ℤ))) 0 10 0 10 2
    (by decide) (by intro i hi; dsimp only; omega)

/-- C9: starting from the empty tracker, for any nonzero check interval and
any event trace, the main loop never fails — in particular the registry
lookup `poi_pos[poi_id]` for an assigned vehicle never hits a missing key —
and the final tracker maps every vehicle to `None` or to a key of the
registry.  Applied to each prefix of a trace, this gives the invariant after
the processing of every simulation step. -/
theorem C9_tracker_values_in_registry (d : Pos → Pos → ℚ) (poi_pos : Registry)
    (max_dist : ℚ) (interval : ℤ) (hi : interval ≠ 0)
    (events : List StepEvents) (step₀ : ℕ) :
    ∃ m, runSteps d poi_pos max_dist interval step₀ [] events = .ok m ∧
      ValuesOk poi_pos m :=
  runSteps_total d poi_pos max_dist interval hi events step₀ []
    (fun kv hkv => absurd hkv (List.not_mem_nil kv))

theorem C9_witness :
    ∃ m, runSteps dDisc [("0", ((0 : ℚ), (0 : ℚ)))] 100 2 0 []
        [⟨[], [], [("v", ((0 : ℚ), (0 : ℚ)))]⟩] = .ok m ∧
      ValuesOk [("0", ((0 : ℚ), (0 : ℚ)))] m :=
  C9_tracker_values_in_registry dDisc [("0", ((0 : ℚ), (0 : ℚ)))] 100 2
    (by decide) [⟨[], [], [("v", ((0 : ℚ), (0 : ℚ)))]⟩] 0

/-- C10: a synthetic site count supplied as `0` with no site-definition file
is falsy for the branch test `elif args.cell_sites:`, so startup raises the
missing-site-source error instead of building an empty registry: a count of
`0` behaves exactly like no count supplied. -/
theorem C10_zero_count_rejected (st dist : ℤ) (net : Option String) :
    selectSiteMode ⟨some 0, st, dist, none, net⟩ =
      .error .missingSiteSource := by
  simp [selectSiteMode, pyTruthyOptStr, pyTruthyOptInt]

end SitesAssociation
